import Mathlib

/-!
Verification development for the KaspaCom Data API Gateway repository.

The repository ships the dashboard front-end (`dashboard/krcbot-dashboard.js`),
documentation (README, `GRAPHQL_TESTING.md`) and a shell test script; the Rust
core (TierOrchestrator, QueryGuard, RateLimiter, CacheKeyBuilder,
StatsAggregator) is not part of the source tree.  Dashboard functions are
embedded directly from the JavaScript source; core components are modelled
from the specification, as indicated in each doc comment.

JavaScript numbers are modelled with `ℚ` (exact arithmetic), JavaScript
strings with `String`, and `undefined`/`NaN` outcomes with `Option`.
-/

namespace KaspaGateway

/-! ### JavaScript string / number helpers (embedding of JS built-ins) -/

/-- Embedding of JavaScript `String.prototype.trim`: drop whitespace from both
ends.  Implemented structurally over the character list so that it evaluates
by kernel reduction. -/
def jsTrim (s : String) : String :=
  String.mk (((s.toList.dropWhile Char.isWhitespace).reverse.dropWhile Char.isWhitespace).reverse)

/-- UTF-8 byte length of a string, summed structurally over its characters. -/
def utf8Len (s : String) : Nat :=
  s.toList.foldl (fun n c => n + c.utf8Size) 0

/-- Numeric value of a list of decimal digit characters. -/
def digitsVal (cs : List Char) : Nat :=
  cs.foldl (fun a c => 10 * a + (c.toNat - 48)) 0

/-- Parse an unsigned decimal literal (`123`, `123.45`, `.5`, `1.`); `none`
models `NaN` for non-numeric text. -/
def parseUnsigned? (cs : List Char) : Option ℚ :=
  let ip := cs.takeWhile Char.isDigit
  let rest := cs.dropWhile Char.isDigit
  match rest with
  | [] => if ip.isEmpty then none else some ((digitsVal ip : ℚ))
  | '.' :: fr =>
      if fr.all Char.isDigit ∧ (ip.isEmpty = false ∨ fr.isEmpty = false) then
        some ((digitsVal ip : ℚ) + (digitsVal fr : ℚ) / (10 : ℚ) ^ fr.length)
      else none
  | _ => none

/-- Parse an optionally signed decimal literal; `none` models `NaN`. -/
def parseNumber? (cs : List Char) : Option ℚ :=
  match cs with
  | '+' :: r => parseUnsigned? r
  | '-' :: r => (parseUnsigned? r).map (fun q => -q)
  | r => parseUnsigned? r

/-- A JavaScript value as it may arrive at `formatBytes`: a (finite) number,
`null`, `undefined`, or a string. -/
inductive JSValue
  | num (q : ℚ)
  | null
  | undef
  | str (s : String)

/-- Embedding of JavaScript unary `+` coercion on the values above: numbers
are themselves, `null` is `0`, `undefined` is `NaN` (`none`), strings are
trimmed and parsed as decimal literals (empty string is `0`, non-numeric text
is `NaN`). -/
def jsToNumber : JSValue → Option ℚ
  | .num q => some q
  | .null => some 0
  | .undef => none
  | .str s =>
      let t := jsTrim s
      if t = "" then some 0 else parseNumber? t.toList

/-! ### `formatBytes` (source: `dashboard/krcbot-dashboard.js` lines 452-459,
matching the copy in the temporary dashboard patch file) -/

/-- The unit array of `formatBytes`:
`const sizes = ['Bytes', 'KB', 'MB', 'GB', 'TB'];`. -/
def sizes : List String := ["Bytes", "KB", "MB", "GB", "TB"]

/-- Pad a digit string on the left with `'0'` up to width `w`. -/
def padZeros (w : Nat) (s : String) : String :=
  String.mk (List.replicate (w - s.length) '0') ++ s

/-- Drop trailing `'0'` characters (models how `parseFloat` re-rendering drops
trailing zeros of a fixed-point literal). -/
def stripTrailZeros (s : String) : String :=
  String.mk ((s.toList.reverse.dropWhile (fun c => c = '0')).reverse)

/-- Embedding of `parseFloat((x).toFixed(dm))` rendered back to a string, for
a non-negative rational `x`: round half-up to `dm` decimals, then print with
trailing zeros (and a trailing decimal point) removed. -/
def renderFixed (dm : Nat) (x : ℚ) : String :=
  let n : Nat := (⌊x * (10 : ℚ) ^ dm + 1 / 2⌋).toNat
  let ip := n / 10 ^ dm
  let fp := n % 10 ^ dm
  let fs := stripTrailZeros (padZeros dm (Nat.repr fp))
  if fs = "" then Nat.repr ip else Nat.repr ip ++ "." ++ fs

/-- `Math.floor(Math.log(q) / Math.log(1024))` for `q > 0`, computed exactly:
for `q ≥ 1` it is `Nat.log 1024 ⌊q⌋`, and for `0 < q < 1` it is the negated
ceiling-log of `1/q`. -/
def floorLog1024 (q : ℚ) : Int :=
  if 1 ≤ q then ((Nat.log 1024 (⌊q⌋).toNat : Nat) : Int)
  else -((Nat.clog 1024 (⌈q⁻¹⌉).toNat : Nat) : Int)

/-- Embedding of `formatBytes(bytes, decimals)` from the dashboard source:

```js
function formatBytes(bytes, decimals = 2) {
    if (!+bytes) return '0 Bytes';
    const k = 1024;
    const dm = decimals < 0 ? 0 : decimals;
    const sizes = ['Bytes', 'KB', 'MB', 'GB', 'TB'];
    const i = Math.floor(Math.log(bytes) / Math.log(k));
    return parseFloat((bytes / Math.pow(k, i)).toFixed(dm)) + ' ' + sizes[i];
}
```

`!+bytes` is true exactly when the coercion is `0` or `NaN`.  For a negative
number `Math.log` yields `NaN`, the index is `NaN`, the quotient is `NaN` and
`sizes[NaN]` is `undefined`, so the rendered result is `"NaN undefined"`.
For an out-of-range index `sizes[i]` is `undefined`, rendered `"undefined"`. -/
def formatBytes (v : JSValue) (decimals : Int) : String :=
  match jsToNumber v with
  | none => "0 Bytes"
  | some q =>
      if q = 0 then "0 Bytes"
      else if q < 0 then "NaN undefined"
      else
        let dm := decimals.toNat
        let i := floorLog1024 q
        let unit := if 0 ≤ i ∧ i < 5 then sizes.getD i.toNat "undefined" else "undefined"
        renderFixed dm (q / (1024 : ℚ) ^ i) ++ " " ++ unit

/-! ### Dashboard cache statistics display
(source: `dashboard/krcbot-dashboard.js`, `checkStatus` and `loadSystemData`) -/

/-- Per-category counters as delivered by `/v1/api/kaspa/cache/stats`
(`requests`, `hits`, `misses` fields of each category record). -/
structure CategoryStats where
  requests : Nat
  hits : Nat
  misses : Nat
deriving DecidableEq

/-- Embedding of JavaScript `(x).toFixed(1)` for a non-negative rational:
round half-up to one decimal and always print one decimal digit. -/
def toFixed1 (q : ℚ) : String :=
  let n : Nat := (⌊q * 10 + 1 / 2⌋).toNat
  Nat.repr (n / 10) ++ "." ++ Nat.repr (n % 10)

/-- Per-category hit rate displayed in the system table
(`loadSystemData`, line 531):
`requests > 0 ? ((hits / requests) * 100).toFixed(1) : '0.0'`. -/
def categoryHitRate (s : CategoryStats) : String :=
  if s.requests > 0 then toFixed1 ((s.hits : ℚ) / (s.requests : ℚ) * 100) else "0.0"

/-- Shape of the cache-stats response used by the dashboard: the per-category
map and the top-level `cache_hits` counter. -/
structure CacheStatsResponse where
  categories : List (String × CategoryStats)
  cache_hits : Nat
deriving DecidableEq

/-- `totalRequests` accumulated over all categories (`loadSystemData`,
lines 494-503). -/
def sumRequests (cs : List (String × CategoryStats)) : Nat :=
  (cs.map (fun p => p.2.requests)).sum

/-- `totalHits` accumulated over all categories. -/
def sumHits (cs : List (String × CategoryStats)) : Nat :=
  (cs.map (fun p => p.2.hits)).sum

/-- `totalMisses` accumulated over all categories. -/
def sumMisses (cs : List (String × CategoryStats)) : Nat :=
  (cs.map (fun p => p.2.misses)).sum

/-- Embedding of the aggregate hit rate of `loadSystemData` (lines 507-508):

```js
const totalHitRate = totalRequests > 0 ? ((totalHits / totalRequests) * 100).toFixed(1) :
    (cache.cache_hits > 0 && totalRequests === 0 ? '100.0' : '0.0');
```

(`checkStatus`, lines 148-149, computes the same value: its else-branch
`cache.cache_hits > 0 ? '100.0' : '0.0'` runs only when `totalRequests ≤ 0`.) -/
def totalHitRate (c : CacheStatsResponse) : String :=
  let totalRequests := sumRequests c.categories
  let totalHits := sumHits c.categories
  if totalRequests > 0 then toFixed1 ((totalHits : ℚ) / (totalRequests : ℚ) * 100)
  else if c.cache_hits > 0 ∧ totalRequests = 0 then "100.0"
  else "0.0"

/-! ### Pagination (source: `dashboard/krcbot-dashboard.js` lines 40-84) -/

/-- `const PAGE_SIZE = 25;` -/
def PAGE_SIZE : Nat := 25

/-- Result of `renderPagination`: the HTML written to the container and the
`data-page` values of the non-disabled buttons that receive click handlers,
in document order. -/
structure PaginationRender where
  html : String
  handlers : List Nat
deriving DecidableEq

/-- Embedding of `renderPagination(containerId, currentPage, totalItems,
onPageChange)`.  `totalPages = Math.ceil(totalItems / PAGE_SIZE)`; when
`totalPages <= 1` the container is cleared and the function returns before
creating any buttons or handlers.  Otherwise the button row is built exactly
as in the source (Prev, optional first page and ellipsis, the window
`[currentPage-2, currentPage+2]` clamped to `[1, totalPages]`, optional
ellipsis and last page, the info span, Next), and click handlers are attached
to every non-disabled `page-btn`. -/
def renderPagination (currentPage totalItems : Nat) : PaginationRender :=
  let totalPages := (totalItems + PAGE_SIZE - 1) / PAGE_SIZE
  if totalPages ≤ 1 then ⟨"", []⟩
  else
    let startPage := max 1 (currentPage - 2)
    let endPage := min totalPages (currentPage + 2)
    let pageList := (List.range (endPage + 1 - startPage)).map (fun k => startPage + k)
    let btn := fun (active : Bool) (p : Nat) =>
      "<button class=\"page-btn" ++ (if active then " active" else "") ++
        "\" data-page=\"" ++ Nat.repr p ++ "\">" ++ Nat.repr p ++ "</button>"
    let prevHtml := "<button class=\"page-btn\" " ++
      (if currentPage = 1 then "disabled" else "") ++ " data-page=\"" ++
      Nat.repr (currentPage - 1) ++ "\">← Prev</button>"
    let firstHtml :=
      if startPage > 1 then
        btn false 1 ++ (if startPage > 2 then "<span class=\"page-info\">...</span>" else "")
      else ""
    let midHtml := String.join (pageList.map (fun i => btn (i = currentPage) i))
    let lastHtml :=
      if endPage < totalPages then
        (if endPage < totalPages - 1 then "<span class=\"page-info\">...</span>" else "") ++
          btn false totalPages
      else ""
    let infoHtml := "<span class=\"page-info\">Page " ++ Nat.repr currentPage ++ " of " ++
      Nat.repr totalPages ++ " (" ++ Nat.repr totalItems ++ " items)</span>"
    let nextHtml := "<button class=\"page-btn\" " ++
      (if currentPage = totalPages then "disabled" else "") ++ " data-page=\"" ++
      Nat.repr (currentPage + 1) ++ "\">Next →</button>"
    let handlers :=
      (if currentPage = 1 then [] else [currentPage - 1]) ++
      (if startPage > 1 then [1] else []) ++
      pageList ++
      (if endPage < totalPages then [totalPages] else []) ++
      (if currentPage = totalPages then [] else [currentPage + 1])
    ⟨prevHtml ++ firstHtml ++ midHtml ++ lastHtml ++ infoHtml ++ nextHtml, handlers⟩

/-! ### Cache categories and TTL configuration -/

/-- Cache categories (spec §3; the dashboard's `getApiNameForCategory` uses
the same tags). -/
inductive CacheCategory
  | floor_prices
  | trade_stats
  | sold_orders
  | hot_mints
  | token_info
  | logos
  | krc721
  | kns
  | historical
deriving DecidableEq

/-- Name tag of a category, used as the key namespace. -/
def catName : CacheCategory → String
  | .floor_prices => "floor_prices"
  | .trade_stats => "trade_stats"
  | .sold_orders => "sold_orders"
  | .hot_mints => "hot_mints"
  | .token_info => "token_info"
  | .logos => "logos"
  | .krc721 => "krc721"
  | .kns => "kns"
  | .historical => "historical"

/-- The Cache TTL Strategy table of the README (`src/unnamed/part_001`
lines 365-372), in seconds: data class, Redis (hot) TTL, Parquet (warm) TTL.
Hot data 30s/5min, warm data 5min/15min, cold data 30min/1h,
static data 1h/24h. -/
def cacheTTLStrategy : List (String × Nat × Nat) :=
  [("hot_data", 30, 300),
   ("warm_data", 300, 900),
   ("cold_data", 1800, 3600),
   ("static_data", 3600, 86400)]

/-! ### StatsAggregator.
Modelled from the spec: the Rust `StatsAggregator` is not in the source tree.
Spec §4.2/§4.6: every orchestrator call records `requests++` and exactly one
of `hits++` / `misses++` for its category; counters start at zero and live for
the process lifetime. -/

/-- Modelled from the spec: one completed orchestrator call, attributed as a
hit or a miss for its category (missing component: StatsAggregator). -/
inductive StatEvent
  | hit (c : CacheCategory)
  | miss (c : CacheCategory)

/-- Modelled from the spec: apply one stats event, incrementing `requests`
together with the matching `hits`/`misses` counter of the event's category. -/
def applyStatEvent (f : CacheCategory → CategoryStats) (e : StatEvent) :
    CacheCategory → CategoryStats :=
  match e with
  | .hit c => fun x =>
      if x = c then ⟨(f x).requests + 1, (f x).hits + 1, (f x).misses⟩ else f x
  | .miss c => fun x =>
      if x = c then ⟨(f x).requests + 1, (f x).hits, (f x).misses + 1⟩ else f x

/-- All counters start at zero. -/
def initStats : CacheCategory → CategoryStats := fun _ => ⟨0, 0, 0⟩

/-- Modelled from the spec: the counters observed after a sequence of
orchestrator calls (an observation point / stats snapshot). -/
def runStats (es : List StatEvent) : CacheCategory → CategoryStats :=
  es.foldl applyStatEvent initStats

/-! ### CacheKeyBuilder.
Modelled from the spec (§4.1): the Rust `CacheKeyBuilder` is not in the
source tree.  Parameters are serialized and sorted before being joined, so
the key is a stable function of category and parameter set. -/

/-- Serialize one parameter as `key=value`. -/
def serializeParam (p : String × String) : String := p.1 ++ "=" ++ p.2

/-- Modelled from the spec: `buildKey(category, params)`; parameters are
sorted/normalized before serialization (missing component: CacheKeyBuilder).
Pure and total by construction. -/
def buildKey (category : String) (params : List (String × String)) : String :=
  category ++ ":" ++
    String.intercalate "&" (List.insertionSort (· ≤ ·) (params.map serializeParam))

/-! ### QueryGuard.
Modelled from the spec (§4.7) and the README limits (`src/unnamed/part_001`
lines 239-250): max size 50KB, max depth 10, max complexity 1000; the Rust
`QueryGuard` is not in the source tree. -/

/-- Static query limits, loaded once at process start. -/
structure QueryLimits where
  maxSizeBytes : Nat
  maxDepth : Nat
  maxComplexity : Nat
deriving DecidableEq

/-- The configured limits from the README: 50KB, 10 levels, complexity 1000. -/
def defaultQueryLimits : QueryLimits := ⟨50 * 1024, 10, 1000⟩

/-- QueryGuard error taxonomy (spec §7). -/
inductive GuardError
  | QueryTooLarge
  | EmptyQuery
  | QueryTooDeep
  | QueryTooComplex
deriving DecidableEq

/-- A node of the parsed selection tree: field name, optional list-size
argument (e.g. a pagination limit), and sub-selections. -/
inductive Sel
  | node (name : String) (limitArg : Option Nat) (children : List Sel)

mutual

/-- Nesting depth of a selection node. -/
def depthF : Sel → Nat
  | .node _ _ cs => 1 + depthL cs

/-- Maximum nesting depth of a selection list. -/
def depthL : List Sel → Nat
  | [] => 0
  | c :: cs => max (depthF c) (depthL cs)

end

mutual

/-- Modelled from the spec: per-field base cost 1, scaled by the list-size
argument, plus the scaled cost of the sub-selection. -/
def complexityF : Sel → Nat
  | .node _ la cs => 1 + la.getD 1 * complexityL cs

/-- Total complexity of a selection list. -/
def complexityL : List Sel → Nat
  | [] => 0
  | c :: cs => complexityF c + complexityL cs

end

/-- A structured query: the raw query text and its parsed selection tree. -/
structure GQuery where
  raw : String
  tree : List Sel

/-- Serialized size of the raw query in bytes. -/
def sizeBytes (q : GQuery) : Nat := utf8Len q.raw

/-- Modelled from the spec: the four QueryGuard checks, in order —
size, emptiness, depth, complexity (missing component: QueryGuard). -/
def queryGuard (lim : QueryLimits) (q : GQuery) : Except GuardError Unit :=
  if sizeBytes q > lim.maxSizeBytes then .error .QueryTooLarge
  else if jsTrim q.raw = "" then .error .EmptyQuery
  else if depthL q.tree > lim.maxDepth then .error .QueryTooDeep
  else if complexityL q.tree > lim.maxComplexity then .error .QueryTooComplex
  else .ok ()

/-! ### RateLimiter.
Modelled from the spec (§4.5): token bucket with fixed capacity and a fixed
refill per time window, refilled lazily from elapsed time at each acquisition
attempt; the Rust `RateLimiter` is not in the source tree. -/

/-- The token bucket state of the spec's data model (§3). -/
structure RateLimitBucket where
  capacity : Nat
  refillPerWindow : Nat
  windowLen : Nat
  tokensRemaining : Nat
  lastRefillTime : Nat
deriving DecidableEq

/-- Modelled from the spec: lazy refill — credit one refill quantum per fully
elapsed window, clamped to capacity. -/
def refillBucket (now : Nat) (b : RateLimitBucket) : RateLimitBucket :=
  let elapsed := now - b.lastRefillTime
  let windows := if b.windowLen = 0 then 0 else elapsed / b.windowLen
  { b with
    tokensRemaining := min b.capacity (b.tokensRemaining + windows * b.refillPerWindow)
    lastRefillTime := b.lastRefillTime + windows * b.windowLen }

/-- Outcome of one acquisition attempt. -/
inductive AcquireResult
  | granted
  | rateLimitExceeded
deriving DecidableEq

/-- Modelled from the spec: refill lazily, then take one token if available,
else fail fast with `RateLimitExceeded` (no blocking, no queueing). -/
def tryAcquire (now : Nat) (b : RateLimitBucket) : AcquireResult × RateLimitBucket :=
  let b1 := refillBucket now b
  if b1.tokensRemaining = 0 then (.rateLimitExceeded, b1)
  else (.granted, { b1 with tokensRemaining := b1.tokensRemaining - 1 })

/-- `k` consecutive acquisition attempts at time `now`; returns the number of
granted attempts and the final bucket. -/
def drainN (now : Nat) : Nat → RateLimitBucket → Nat × RateLimitBucket
  | 0, b => (0, b)
  | k + 1, b =>
      let (res, b1) := tryAcquire now b
      let (c, b2) := drainN now k b1
      ((if res = .granted then 1 else 0) + c, b2)

/-- A bucket freshly filled to capacity `c` at time `now`. -/
def fullBucket (c rate win now : Nat) : RateLimitBucket := ⟨c, rate, win, c, now⟩

/-! ### TierOrchestrator front door.
Modelled from the spec (§4.2, §4.7): the Rust gateway service is not in the
source tree.  `handleQuery` runs the QueryGuard first; only on success does it
resolve each selected field with its own `orchestratorGet` call. -/

/-- Orchestrator-level errors surfaced by the modelled `get`. -/
inductive GetError
  | rateLimited
deriving DecidableEq

/-- The mutable state touched by the orchestrator: both cache tiers, the
rate-limit bucket, the per-category stats, and counters of origin fetches and
orchestrator `get` calls. -/
structure GatewayState where
  hot : List (String × String)
  warm : List (String × String)
  bucket : RateLimitBucket
  stats : CacheCategory → CategoryStats
  originCalls : Nat
  getCalls : Nat

/-- `requests++` for one category. -/
def bumpRequests (f : CacheCategory → CategoryStats) (c : CacheCategory) :
    CacheCategory → CategoryStats :=
  fun x => if x = c then ⟨(f x).requests + 1, (f x).hits, (f x).misses⟩ else f x

/-- `hits++` for one category. -/
def bumpHits (f : CacheCategory → CategoryStats) (c : CacheCategory) :
    CacheCategory → CategoryStats :=
  fun x => if x = c then ⟨(f x).requests, (f x).hits + 1, (f x).misses⟩ else f x

/-- `misses++` for one category. -/
def bumpMisses (f : CacheCategory → CategoryStats) (c : CacheCategory) :
    CacheCategory → CategoryStats :=
  fun x => if x = c then ⟨(f x).requests, (f x).hits, (f x).misses + 1⟩ else f x

/-- Modelled from the spec: `TierOrchestrator.get` — build the key, record the
request, consult hot then warm (promoting a warm value), otherwise record a
miss and fetch from the origin behind the rate limiter, populating both tiers
on success (missing component: TierOrchestrator). -/
def orchestratorGet (origin : String → String) (now : Nat) (cat : CacheCategory)
    (params : List (String × String)) (st : GatewayState) :
    Except GetError String × GatewayState :=
  let key := buildKey (catName cat) params
  let st1 : GatewayState :=
    { st with getCalls := st.getCalls + 1, stats := bumpRequests st.stats cat }
  match st1.hot.lookup key with
  | some v => (.ok v, { st1 with stats := bumpHits st1.stats cat })
  | none =>
      match st1.warm.lookup key with
      | some v =>
          (.ok v, { st1 with stats := bumpHits st1.stats cat, hot := (key, v) :: st1.hot })
      | none =>
          let st2 : GatewayState := { st1 with stats := bumpMisses st1.stats cat }
          match tryAcquire now st2.bucket with
          | (.rateLimitExceeded, b) => (.error .rateLimited, { st2 with bucket := b })
          | (.granted, b) =>
              let v := origin key
              (.ok v,
               { st2 with
                 bucket := b
                 originCalls := st2.originCalls + 1
                 hot := (key, v) :: st2.hot
                 warm := (key, v) :: st2.warm })

/-- Resolve each selected top-level field independently, each with its own
orchestrator `get` call (spec §4.7). -/
def resolveFields (fieldCat : String → CacheCategory) (origin : String → String)
    (now : Nat) : List Sel → GatewayState →
    List (Except GetError String) × GatewayState
  | [], st => ([], st)
  | Sel.node name _ _ :: fs, st =>
      let (r, st1) := orchestratorGet origin now (fieldCat name) [] st
      let (rs, st2) := resolveFields fieldCat origin now fs st1
      (r :: rs, st2)

/-- Modelled from the spec: the structured-query front door — all four guard
checks run before any orchestrator call; a rejected query returns the guard
error with the state untouched. -/
def handleQuery (lim : QueryLimits) (fieldCat : String → CacheCategory)
    (origin : String → String) (now : Nat) (q : GQuery) (st : GatewayState) :
    Except GuardError (List (Except GetError String)) × GatewayState :=
  match queryGuard lim q with
  | .error e => (.error e, st)
  | .ok _ =>
      let (rs, st1) := resolveFields fieldCat origin now q.tree st
      (.ok rs, st1)

/-! ### Single-flight deduplication.
Modelled from the spec (§4.2 step 4, §5, §9): the Rust in-flight registry is
not in the source tree.  We model all orchestrator calls for one fixed cold
key as an interleaving of atomic steps over a shared state; `r` is the single
outcome of the one origin fetch for that key (payload or error), shared by
every waiter. -/

/-- The outcome of an origin fetch: a payload or an upstream error. -/
inductive FetchResult
  | ok (payload : String)
  | err (msg : String)
deriving DecidableEq

/-- Whether a fetch outcome is a success (only successes are cached). -/
def FetchResult.isOk : FetchResult → Bool
  | .ok _ => true
  | .err _ => false

/-- The phase of one orchestrator caller for the key: not yet arrived,
attached to the in-flight fetch, or finished with a result. -/
inductive CallerState
  | start
  | waiting
  | done (r : FetchResult)
deriving DecidableEq

/-- Shared state for one key: the callers, whether an `InFlightFetch` record
exists (atomic insert-if-absent guarantees at most one), whether a successful
result has been cached, and the number of OriginFetcher invocations. -/
structure SFState where
  callers : List CallerState
  inFlight : Bool
  cached : Bool
  originCalls : Nat
deriving DecidableEq

/-- Atomic steps of the single-flight protocol: caller `i` installs the
in-flight record and starts the fetch (insert-if-absent succeeded), caller `i`
attaches to an existing in-flight fetch as a waiter, caller `i` hits the
populated cache, or the outstanding fetch completes and releases its result
to every waiter (removing the record unconditionally, caching on success). -/
inductive SFStep
  | beginFetch (i : Nat)
  | joinFlight (i : Nat)
  | hitCache (i : Nat)
  | complete
deriving DecidableEq

/-- Modelled from the spec: one atomic step of the single-flight state
machine; `none` when the step's guard does not hold. -/
def applySF (r : FetchResult) (s : SFState) : SFStep → Option SFState
  | .beginFetch i =>
      if s.callers.get? i = some .start ∧ s.inFlight = false ∧ s.cached = false then
        some ⟨s.callers.set i .waiting, true, s.cached, s.originCalls + 1⟩
      else none
  | .joinFlight i =>
      if s.callers.get? i = some .start ∧ s.inFlight = true then
        some { s with callers := s.callers.set i .waiting }
      else none
  | .hitCache i =>
      if s.callers.get? i = some .start ∧ s.cached = true then
        some { s with callers := s.callers.set i (.done r) }
      else none
  | .complete =>
      if s.inFlight = true then
        some ⟨s.callers.map (fun c => if c = .waiting then .done r else c),
              false, r.isOk, s.originCalls⟩
      else none

/-- Run a list of steps; the whole run fails if any guard fails. -/
def runSF (r : FetchResult) (ts : List SFStep) (s : SFState) : Option SFState :=
  ts.foldlM (applySF r) s

/-- Initial state for `n` concurrent callers and a cold key: nobody has
arrived, no in-flight fetch, nothing cached, no origin calls. -/
def initSF (n : Nat) : SFState := ⟨List.replicate n .start, false, false, 0⟩

/-! ## Theorems -/

/-! ### Helper lemmas -/

theorem applyStatEvent_inv (f : CacheCategory → CategoryStats) (e : StatEvent)
    (h : ∀ c, (f c).hits + (f c).misses = (f c).requests) (c : CacheCategory) :
    (applyStatEvent f e c).hits + (applyStatEvent f e c).misses
      = (applyStatEvent f e c).requests := by
  cases e with
  | hit d =>
      by_cases hc : c = d
      · subst hc
        simp [applyStatEvent]
        have := h c
        omega
      · simp only [applyStatEvent, if_neg hc]
        exact h c
  | miss d =>
      by_cases hc : c = d
      · subst hc
        simp [applyStatEvent]
        have := h c
        omega
      · simp only [applyStatEvent, if_neg hc]
        exact h c

theorem applyStatEvent_inv' (f : CacheCategory → CategoryStats) (e : StatEvent)
    (h : ∀ c, (f c).hits + (f c).misses = (f c).requests) :
    ∀ c, (applyStatEvent f e c).hits + (applyStatEvent f e c).misses
      = (applyStatEvent f e c).requests :=
  fun c => applyStatEvent_inv f e h c

theorem foldl_stats_inv (es : List StatEvent) :
    ∀ f : CacheCategory → CategoryStats,
      (∀ c, (f c).hits + (f c).misses = (f c).requests) →
      ∀ c, ((es.foldl applyStatEvent f) c).hits + ((es.foldl applyStatEvent f) c).misses
        = ((es.foldl applyStatEvent f) c).requests := by
  induction es with
  | nil => intro f h c; exact h c
  | cons e es ih =>
      intro f h c
      exact ih (applyStatEvent f e) (applyStatEvent_inv' f e h) c

theorem applyStatEvent_mono (f : CacheCategory → CategoryStats) (e : StatEvent)
    (c : CacheCategory) :
    (f c).requests ≤ (applyStatEvent f e c).requests ∧
    (f c).hits ≤ (applyStatEvent f e c).hits ∧
    (f c).misses ≤ (applyStatEvent f e c).misses := by
  cases e with
  | hit d =>
      by_cases hc : c = d
      · subst hc
        simp [applyStatEvent]
      · simp only [applyStatEvent, if_neg hc]
        exact ⟨le_refl _, le_refl _, le_refl _⟩
  | miss d =>
      by_cases hc : c = d
      · subst hc
        simp [applyStatEvent]
      · simp only [applyStatEvent, if_neg hc]
        exact ⟨le_refl _, le_refl _, le_refl _⟩

theorem foldl_stats_mono (es : List StatEvent) :
    ∀ (f : CacheCategory → CategoryStats) (c : CacheCategory),
      (f c).requests ≤ ((es.foldl applyStatEvent f) c).requests ∧
      (f c).hits ≤ ((es.foldl applyStatEvent f) c).hits ∧
      (f c).misses ≤ ((es.foldl applyStatEvent f) c).misses := by
  induction es with
  | nil => intro f c; exact ⟨le_refl _, le_refl _, le_refl _⟩
  | cons e es ih =>
      intro f c
      obtain ⟨h1, h2, h3⟩ := applyStatEvent_mono f e c
      obtain ⟨g1, g2, g3⟩ := ih (applyStatEvent f e) c
      exact ⟨h1.trans g1, h2.trans g2, h3.trans g3⟩

theorem refillBucket_same_time (c rate win t now : Nat) :
    refillBucket now ⟨c, rate, win, t, now⟩ = ⟨c, rate, win, min c t, now⟩ := by
  simp [refillBucket]

theorem tryAcquire_same_time_pos (now c rate win t : Nat) (h1 : 0 < t) (h2 : t ≤ c) :
    tryAcquire now ⟨c, rate, win, t, now⟩ = (.granted, ⟨c, rate, win, t - 1, now⟩) := by
  have hm : min c t = t := Nat.min_eq_right h2
  simp [tryAcquire, refillBucket_same_time, hm, Nat.pos_iff_ne_zero.mp h1]

theorem tryAcquire_same_time_empty (now c rate win : Nat) :
    tryAcquire now ⟨c, rate, win, 0, now⟩ = (.rateLimitExceeded, ⟨c, rate, win, 0, now⟩) := by
  simp [tryAcquire, refillBucket_same_time]

theorem drainN_full (now c rate win : Nat) :
    ∀ k t, t ≤ c → k ≤ t →
      drainN now k ⟨c, rate, win, t, now⟩ = (k, ⟨c, rate, win, t - k, now⟩) := by
  intro k
  induction k with
  | zero => intro t ht hk; simp [drainN]
  | succ k ih =>
      intro t ht hk
      have hpos : 0 < t := by omega
      rw [drainN, tryAcquire_same_time_pos now c rate win t hpos ht]
      have hrec := ih (t - 1) (by omega) (by omega)
      simp only [hrec]
      have h2 : t - 1 - k = t - (k + 1) := by omega
      rw [h2]
      simp [Nat.add_comm]

/-! ### Claim theorems -/

/-- C1 counterexample: in `loadSystemData` (and `checkStatus`), when every
per-category `requests` counter is zero but the top-level `cache_hits` field
is positive, the hit rate shown to the user is the string `"100.0"`, not `0`
as the claim requires. -/
theorem hit_rate_zero_requests_cex :
    sumRequests [("floor_prices", ⟨0, 0, 0⟩)] = 0 ∧
    totalHitRate ⟨[("floor_prices", ⟨0, 0, 0⟩)], 125000⟩ = "100.0" ∧
    ("100.0" : String) ≠ "0.0" := by
  refine ⟨rfl, by decide, by decide⟩

/-- C1 amended: a per-category statistics record displays hit rate
`hits / requests * 100` (as `toFixed(1)`) when `requests > 0` and `"0.0"`
when `requests == 0`; the aggregate hit rate is `hits / requests * 100` when
total requests are positive, `"0.0"` when total requests and `cache_hits` are
both zero, but `"100.0"` when total requests are zero while the top-level
`cache_hits` counter is positive. -/
theorem hit_rate_display_amended (cs : List (String × CategoryStats)) (ch : Nat)
    (s : CategoryStats) :
    (0 < s.requests →
      categoryHitRate s = toFixed1 ((s.hits : ℚ) / (s.requests : ℚ) * 100)) ∧
    (s.requests = 0 → categoryHitRate s = "0.0") ∧
    (0 < sumRequests cs →
      totalHitRate ⟨cs, ch⟩ = toFixed1 ((sumHits cs : ℚ) / (sumRequests cs : ℚ) * 100)) ∧
    (sumRequests cs = 0 → ch = 0 → totalHitRate ⟨cs, ch⟩ = "0.0") ∧
    (sumRequests cs = 0 → 0 < ch → totalHitRate ⟨cs, ch⟩ = "100.0") := by
  refine ⟨?_, ?_, ?_, ?_, ?_⟩
  · intro h
    simp [categoryHitRate, h]
  · intro h
    simp [categoryHitRate, h]
  · intro h
    simp [totalHitRate, h]
  · intro h hch
    simp [totalHitRate, h, hch]
  · intro h hch
    simp [totalHitRate, h, Nat.pos_iff_ne_zero.mp hch]

/-- C1 witness: concrete instances of the five display cases, covering the
positive per-category record from the README example (45000 hits out of
50000 requests). -/
theorem hit_rate_display_amended_witness :
    categoryHitRate ⟨50000, 45000, 5000⟩ =
      toFixed1 (((45000 : ℕ) : ℚ) / ((50000 : ℕ) : ℚ) * 100) ∧
    categoryHitRate ⟨0, 0, 0⟩ = "0.0" ∧
    totalHitRate ⟨[("floor_prices", ⟨50000, 45000, 5000⟩)], 0⟩ =
      toFixed1 ((sumHits [("floor_prices", ⟨50000, 45000, 5000⟩)] : ℚ) /
        (sumRequests [("floor_prices", ⟨50000, 45000, 5000⟩)] : ℚ) * 100) ∧
    totalHitRate ⟨[], 0⟩ = "0.0" ∧
    totalHitRate ⟨[], 7⟩ = "100.0" :=
  ⟨(hit_rate_display_amended [] 0 ⟨50000, 45000, 5000⟩).1 (by decide),
   (hit_rate_display_amended [] 0 ⟨0, 0, 0⟩).2.1 rfl,
   (hit_rate_display_amended [("floor_prices", ⟨50000, 45000, 5000⟩)] 0 ⟨0, 0, 0⟩).2.2.1
     (by decide),
   (hit_rate_display_amended [] 0 ⟨0, 0, 0⟩).2.2.2.1 rfl rfl,
   (hit_rate_display_amended [] 7 ⟨0, 0, 0⟩).2.2.2.2 rfl (by decide)⟩

/-- C2: at every observation point (any event sequence), for every category,
`hits + misses = requests`, and all three counters are monotonically
non-decreasing along the process lifetime (any later observation point
dominates any earlier one componentwise). -/
theorem stats_counter_invariant (es es' : List StatEvent) (c : CacheCategory) :
    ((runStats es) c).hits + ((runStats es) c).misses = ((runStats es) c).requests ∧
    ((runStats es) c).requests ≤ ((runStats (es ++ es')) c).requests ∧
    ((runStats es) c).hits ≤ ((runStats (es ++ es')) c).hits ∧
    ((runStats es) c).misses ≤ ((runStats (es ++ es')) c).misses := by
  refine ⟨foldl_stats_inv es initStats (fun _ => rfl) c, ?_⟩
  unfold runStats
  rw [List.foldl_append]
  exact foldl_stats_mono es' (es.foldl applyStatEvent initStats) c

/-- C4: every row of the configured Cache TTL Strategy table satisfies
`hotTTL ≤ warmTTL` (Redis TTL ≤ Parquet TTL). -/
theorem ttl_ordering : ∀ e ∈ cacheTTLStrategy, e.2.1 ≤ e.2.2 := by decide

/-- C4 witness: the hot-data row. -/
theorem ttl_ordering_witness :
    ("hot_data", 30, 300) ∈ cacheTTLStrategy ∧ (30 : Nat) ≤ 300 :=
  ⟨by decide, ttl_ordering ("hot_data", 30, 300) (by decide)⟩

/-- C6: the QueryGuard fails with `QueryTooLarge` exactly when the serialized
size of the query exceeds `maxSizeBytes`; in particular a query of exactly
`maxSizeBytes` bytes is never rejected as too large, and every query of
`maxSizeBytes + 1` bytes or more is. -/
theorem queryGuard_size_iff (lim : QueryLimits) (q : GQuery) :
    queryGuard lim q = .error .QueryTooLarge ↔ sizeBytes q > lim.maxSizeBytes := by
  unfold queryGuard
  split
  · next h => simp [h]
  · next h =>
      split
      · simp [h]
      · split
        · simp [h]
        · split <;> simp [h]

/-- C10: whenever `totalItems` fits on a single page
(`totalItems ≤ PAGE_SIZE`, so `ceil(totalItems / 25) ≤ 1`), `renderPagination`
clears the container and attaches no page buttons or handlers. -/
theorem renderPagination_single_page (currentPage totalItems : Nat)
    (h : totalItems ≤ PAGE_SIZE) :
    renderPagination currentPage totalItems = ⟨"", []⟩ := by
  have hp : (totalItems + PAGE_SIZE - 1) / PAGE_SIZE ≤ 1 := by
    simp only [PAGE_SIZE] at h ⊢
    omega
  simp [renderPagination, hp]

/-- C10 witness: the boundary case of exactly one full page. -/
theorem renderPagination_single_page_witness :
    renderPagination 1 25 = ⟨"", []⟩ :=
  renderPagination_single_page 1 25 (by decide)

/-- C8: a token bucket of capacity `c` with no elapsed time grants exactly the
first `c` acquisitions, the `(c+1)`-th fails fast with `RateLimitExceeded`,
and one acquisition step always leaves `tokensRemaining ≤ capacity` (with
`0 ≤ tokensRemaining` by the `Nat` representation). -/
theorem rate_limiter_exhaustion (c rate win now : Nat) :
    drainN now c (fullBucket c rate win now) = (c, ⟨c, rate, win, 0, now⟩) ∧
    (tryAcquire now ⟨c, rate, win, 0, now⟩).1 = .rateLimitExceeded ∧
    (∀ t b, b.tokensRemaining ≤ b.capacity →
      (tryAcquire t b).2.tokensRemaining ≤ (tryAcquire t b).2.capacity) := by
  refine ⟨?_, ?_, ?_⟩
  · have := drainN_full now c rate win c c (le_refl c) (le_refl c)
    simpa [fullBucket] using this
  · rw [tryAcquire_same_time_empty]
  · intro t b _
    have htok : (refillBucket t b).tokensRemaining ≤ b.capacity := by
      simp only [refillBucket]
      exact Nat.min_le_left _ _
    have hcap : (refillBucket t b).capacity = b.capacity := rfl
    simp only [tryAcquire]
    split
    · rw [hcap]
      exact htok
    · simp only [hcap]
      omega

/-- C8 witness: capacity 3 drained at one instant, the 4th acquisition
rejected, and one bound-preservation instance. -/
theorem rate_limiter_exhaustion_witness :
    drainN 100 3 (fullBucket 3 5 60 100) = (3, ⟨3, 5, 60, 0, 100⟩) ∧
    (tryAcquire 100 ⟨3, 5, 60, 0, 100⟩).1 = .rateLimitExceeded ∧
    (tryAcquire 7 ⟨4, 1, 60, 2, 5⟩).2.tokensRemaining ≤
      (tryAcquire 7 ⟨4, 1, 60, 2, 5⟩).2.capacity :=
  ⟨(rate_limiter_exhaustion 3 5 60 100).1,
   (rate_limiter_exhaustion 3 5 60 100).2.1,
   (rate_limiter_exhaustion 3 5 60 100).2.2 7 ⟨4, 1, 60, 2, 5⟩ (by decide)⟩

theorem sortedStrings_eq_of_perm (l1 l2 : List String) (h : l1.Perm l2) :
    List.insertionSort (· ≤ ·) l1 = List.insertionSort (· ≤ ·) l2 :=
  List.eq_of_perm_of_sorted
    (((List.perm_insertionSort _ l1).trans h).trans (List.perm_insertionSort _ l2).symm)
    (List.sorted_insertionSort _ l1) (List.sorted_insertionSort _ l2)

/-- C5: `buildKey` is a pure total function (it is a Lean `def` with no
side conditions), and it is invariant under permutation of the parameter
list: two parameter maps with the same key/value pairs in any order yield the
identical cache key. -/
theorem buildKey_perm_invariant (category : String) (p1 p2 : List (String × String))
    (h : p1.Perm p2) : buildKey category p1 = buildKey category p2 := by
  unfold buildKey
  rw [sortedStrings_eq_of_perm (p1.map serializeParam) (p2.map serializeParam)
    (h.map serializeParam)]

/-- C5 witness: the two orders of the `trade-stats` query parameters build the
same key. -/
theorem buildKey_perm_invariant_witness :
    buildKey "trade_stats" [("ticker", "SLOW"), ("timeFrame", "6h")] =
      buildKey "trade_stats" [("timeFrame", "6h"), ("ticker", "SLOW")] :=
  buildKey_perm_invariant "trade_stats" _ _ (List.Perm.swap _ _ _)

/-- C7: a query rejected by any of the four QueryGuard checks is answered
with the guard error and the gateway state is returned untouched: no
orchestrator `get` call happens (the `getCalls` counter is part of the
state), and the cache tiers, rate-limit bucket and stats counters are all
unchanged. -/
theorem queryGuard_reject_no_side_effects (lim : QueryLimits)
    (fieldCat : String → CacheCategory) (origin : String → String) (now : Nat)
    (q : GQuery) (st : GatewayState) (e : GuardError)
    (h : queryGuard lim q = .error e) :
    handleQuery lim fieldCat origin now q st = (.error e, st) := by
  simp [handleQuery, h]

/-- C7 witness: the empty query is rejected with `EmptyQuery` and the state
is returned unchanged. -/
theorem queryGuard_reject_no_side_effects_witness :
    handleQuery defaultQueryLimits (fun _ => CacheCategory.floor_prices)
      (fun _ => "payload") 0 ⟨"", []⟩
      ⟨[], [], ⟨10, 5, 60, 10, 0⟩, fun _ => ⟨0, 0, 0⟩, 0, 0⟩ =
      (.error .EmptyQuery,
        ⟨[], [], ⟨10, 5, 60, 10, 0⟩, fun _ => ⟨0, 0, 0⟩, 0, 0⟩) :=
  queryGuard_reject_no_side_effects defaultQueryLimits
    (fun _ => CacheCategory.floor_prices) (fun _ => "payload") 0 ⟨"", []⟩
    ⟨[], [], ⟨10, 5, 60, 10, 0⟩, fun _ => ⟨0, 0, 0⟩, 0, 0⟩ .EmptyQuery rfl

theorem runSF_nil (r : FetchResult) (s : SFState) : runSF r [] s = some s := rfl

theorem runSF_cons (r : FetchResult) (t : SFStep) (ts : List SFStep) (s : SFState) :
    runSF r (t :: ts) s = (applySF r s t).bind (fun s1 => runSF r ts s1) := by
  cases h : applySF r s t <;> simp [runSF, List.foldlM_cons, h]

theorem sf_phase1_step (r : FetchResult) (s s' : SFState) (t : SFStep)
    (ht : t ≠ SFStep.complete)
    (hA : s.cached = false)
    (hB : (s.inFlight = true → s.originCalls = 1) ∧ (s.inFlight = false → s.originCalls = 0))
    (hC : ∀ c ∈ s.callers, c = CallerState.start ∨ (c = .waiting ∧ s.inFlight = true))
    (happ : applySF r s t = some s') :
    s'.cached = false ∧
    ((s'.inFlight = true → s'.originCalls = 1) ∧ (s'.inFlight = false → s'.originCalls = 0)) ∧
    (∀ c ∈ s'.callers, c = CallerState.start ∨ (c = .waiting ∧ s'.inFlight = true)) ∧
    s'.callers.length = s.callers.length := by
  cases t with
  | beginFetch i =>
      rw [applySF] at happ
      split at happ
      · next hg =>
          obtain ⟨hg1, hg2, hg3⟩ := hg
          obtain rfl : (⟨s.callers.set i .waiting, true, s.cached, s.originCalls + 1⟩ : SFState) = s' :=
            Option.some.inj happ
          refine ⟨hA, ⟨fun _ => ?_, fun hf => by simp_all⟩, ?_, List.length_set _ _ _⟩
          · have := hB.2 hg2
            simp [this]
          · intro c hc
            rcases List.mem_or_eq_of_mem_set hc with hmem | rfl
            · rcases hC c hmem with h1 | h1
              · exact Or.inl h1
              · exact Or.inr ⟨h1.1, rfl⟩
            · exact Or.inr ⟨rfl, rfl⟩
      · exact absurd happ (by simp)
  | joinFlight i =>
      rw [applySF] at happ
      split at happ
      · next hg =>
          obtain ⟨hg1, hg2⟩ := hg
          obtain rfl : ({ s with callers := s.callers.set i .waiting } : SFState) = s' :=
            Option.some.inj happ
          refine ⟨hA, ⟨fun h => hB.1 h, fun h => hB.2 h⟩, ?_, List.length_set _ _ _⟩
          intro c hc
          rcases List.mem_or_eq_of_mem_set hc with hmem | rfl
          · exact hC c hmem
          · exact Or.inr ⟨rfl, hg2⟩
      · exact absurd happ (by simp)
  | hitCache i =>
      rw [applySF] at happ
      split at happ
      · next hg =>
          rw [hA] at hg
          exact absurd hg.2 (by simp)
      · exact absurd happ (by simp)
  | complete => exact absurd rfl ht

theorem sf_phase1_run (r : FetchResult) (ts : List SFStep) :
    ∀ s s' : SFState, SFStep.complete ∉ ts →
    s.cached = false →
    ((s.inFlight = true → s.originCalls = 1) ∧ (s.inFlight = false → s.originCalls = 0)) →
    (∀ c ∈ s.callers, c = CallerState.start ∨ (c = .waiting ∧ s.inFlight = true)) →
    runSF r ts s = some s' →
    s'.cached = false ∧
    ((s'.inFlight = true → s'.originCalls = 1) ∧ (s'.inFlight = false → s'.originCalls = 0)) ∧
    (∀ c ∈ s'.callers, c = CallerState.start ∨ (c = .waiting ∧ s'.inFlight = true)) ∧
    s'.callers.length = s.callers.length := by
  induction ts with
  | nil =>
      intro s s' _ hA hB hC hrun
      obtain rfl : s = s' := Option.some.inj hrun
      exact ⟨hA, hB, hC, rfl⟩
  | cons t ts ih =>
      intro s s' hnc hA hB hC hrun
      rw [runSF_cons] at hrun
      obtain ⟨s1, happ, hrun1⟩ := Option.bind_eq_some.mp hrun
      have hstep := sf_phase1_step r s s1 t (by intro heq; exact hnc (heq ▸ List.mem_cons_self t ts)) hA hB hC happ
      have hrest := ih s1 s' (fun hm => hnc (List.mem_cons_of_mem t hm)) hstep.1 hstep.2.1 hstep.2.2.1 hrun1
      exact ⟨hrest.1, hrest.2.1, hrest.2.2.1, hrest.2.2.2.trans hstep.2.2.2⟩

theorem sf_phase2_step (r : FetchResult) (s s' : SFState) (t : SFStep)
    (hP1 : s.originCalls = 1)
    (hP2 : ∀ c ∈ s.callers, c = CallerState.waiting ∨ c = CallerState.done r)
    (happ : applySF r s t = some s') :
    s'.originCalls = 1 ∧
    (∀ c ∈ s'.callers, c = CallerState.waiting ∨ c = CallerState.done r) ∧
    (t = SFStep.complete → ∀ c ∈ s'.callers, c = CallerState.done r) := by
  cases t with
  | beginFetch i =>
      rw [applySF] at happ
      split at happ
      · next hg =>
          have hmem := List.get?_mem hg.1
          rcases hP2 _ hmem with h | h <;> simp at h
      · exact absurd happ (by simp)
  | joinFlight i =>
      rw [applySF] at happ
      split at happ
      · next hg =>
          have hmem := List.get?_mem hg.1
          rcases hP2 _ hmem with h | h <;> simp at h
      · exact absurd happ (by simp)
  | hitCache i =>
      rw [applySF] at happ
      split at happ
      · next hg =>
          have hmem := List.get?_mem hg.1
          rcases hP2 _ hmem with h | h <;> simp at h
      · exact absurd happ (by simp)
  | complete =>
      rw [applySF] at happ
      split at happ
      · obtain rfl : (⟨s.callers.map (fun c => if c = .waiting then .done r else c),
            false, r.isOk, s.originCalls⟩ : SFState) = s' := Option.some.inj happ
        have hall : ∀ c ∈ s.callers.map (fun c => if c = .waiting then CallerState.done r else c),
            c = CallerState.done r := by
          intro c hc
          obtain ⟨c0, hc0, rfl⟩ := List.mem_map.mp hc
          rcases hP2 c0 hc0 with h | h
          · simp [h]
          · simp [h]
        exact ⟨hP1, fun c hc => Or.inr (hall c hc), fun _ => hall⟩
      · exact absurd happ (by simp)

theorem sf_done_stable_step (r : FetchResult) (s s' : SFState) (t : SFStep)
    (hP1 : s.originCalls = 1)
    (hD : ∀ c ∈ s.callers, c = CallerState.done r)
    (happ : applySF r s t = some s') :
    s'.originCalls = 1 ∧ ∀ c ∈ s'.callers, c = CallerState.done r := by
  cases t with
  | beginFetch i =>
      rw [applySF] at happ
      split at happ
      · next hg =>
          have := hD _ (List.get?_mem hg.1)
          simp at this
      · exact absurd happ (by simp)
  | joinFlight i =>
      rw [applySF] at happ
      split at happ
      · next hg =>
          have := hD _ (List.get?_mem hg.1)
          simp at this
      · exact absurd happ (by simp)
  | hitCache i =>
      rw [applySF] at happ
      split at happ
      · next hg =>
          have := hD _ (List.get?_mem hg.1)
          simp at this
      · exact absurd happ (by simp)
  | complete =>
      rw [applySF] at happ
      split at happ
      · obtain rfl : (⟨s.callers.map (fun c => if c = .waiting then .done r else c),
            false, r.isOk, s.originCalls⟩ : SFState) = s' := Option.some.inj happ
        refine ⟨hP1, ?_⟩
        intro c hc
        obtain ⟨c0, hc0, rfl⟩ := List.mem_map.mp hc
        have := hD c0 hc0
        simp [this]
      · exact absurd happ (by simp)

theorem sf_done_stable_run (r : FetchResult) (ts : List SFStep) :
    ∀ s s' : SFState, s.originCalls = 1 →
    (∀ c ∈ s.callers, c = CallerState.done r) →
    runSF r ts s = some s' →
    s'.originCalls = 1 ∧ ∀ c ∈ s'.callers, c = CallerState.done r := by
  induction ts with
  | nil =>
      intro s s' h1 h2 hrun
      obtain rfl : s = s' := Option.some.inj hrun
      exact ⟨h1, h2⟩
  | cons t ts ih =>
      intro s s' h1 h2 hrun
      rw [runSF_cons] at hrun
      obtain ⟨s1, happ, hrun1⟩ := Option.bind_eq_some.mp hrun
      have hstep := sf_done_stable_step r s s1 t h1 h2 happ
      exact ih s1 s' hstep.1 hstep.2 hrun1

theorem sf_phase2_run (r : FetchResult) (ts : List SFStep) :
    ∀ s s' : SFState, s.originCalls = 1 →
    (∀ c ∈ s.callers, c = CallerState.waiting ∨ c = CallerState.done r) →
    runSF r ts s = some s' →
    s'.originCalls = 1 ∧
    (∀ c ∈ s'.callers, c = CallerState.waiting ∨ c = CallerState.done r) ∧
    (SFStep.complete ∈ ts → ∀ c ∈ s'.callers, c = CallerState.done r) := by
  induction ts with
  | nil =>
      intro s s' h1 h2 hrun
      obtain rfl : s = s' := Option.some.inj hrun
      exact ⟨h1, h2, fun hmem => absurd hmem (List.not_mem_nil _)⟩
  | cons t ts ih =>
      intro s s' h1 h2 hrun
      rw [runSF_cons] at hrun
      obtain ⟨s1, happ, hrun1⟩ := Option.bind_eq_some.mp hrun
      have hstep := sf_phase2_step r s s1 t h1 h2 happ
      have hrest := ih s1 s' hstep.1 hstep.2.1 hrun1
      refine ⟨hrest.1, hrest.2.1, ?_⟩
      intro hmem
      rcases List.mem_cons.mp hmem with rfl | hmem'
      · have hdone := hstep.2.2 rfl
        exact (sf_done_stable_run r ts s1 s' hstep.1 hdone hrun1).2
      · exact hrest.2.2 hmem'

/-- C3: single-flight deduplication for one cold key.  Consider `n ≥ 2`
orchestrator calls for the same cold key, interleaved arbitrarily
(`ts0 ++ ts1`), where the calls are concurrent: every caller has arrived
(left `start`) before the fetch completes (no `complete` step in `ts0`).
Then exactly one OriginFetcher invocation has been made, every caller that
has finished holds the one shared result `r`, and if the fetch has completed
(`complete ∈ ts1`) every one of the `n` callers has received that same
result (same payload or same error). -/
theorem single_flight_dedup (r : FetchResult) (n : Nat) (ts0 ts1 : List SFStep)
    (s s' : SFState) (hn : 2 ≤ n)
    (h0 : SFStep.complete ∉ ts0)
    (hrun0 : runSF r ts0 (initSF n) = some s)
    (hnostart : CallerState.start ∉ s.callers)
    (hrun1 : runSF r ts1 s = some s') :
    s'.originCalls = 1 ∧
    (∀ c ∈ s'.callers, c = CallerState.waiting ∨ c = CallerState.done r) ∧
    (SFStep.complete ∈ ts1 → ∀ c ∈ s'.callers, c = CallerState.done r) := by
  have hinit1 : (initSF n).cached = false := rfl
  have hinit2 : ((initSF n).inFlight = true → (initSF n).originCalls = 1) ∧
      ((initSF n).inFlight = false → (initSF n).originCalls = 0) := by
    constructor
    · intro h
      simp [initSF] at h
    · intro _
      rfl
  have hinit3 : ∀ c ∈ (initSF n).callers,
      c = CallerState.start ∨ (c = .waiting ∧ (initSF n).inFlight = true) := by
    intro c hc
    exact Or.inl (List.eq_of_mem_replicate hc)
  obtain ⟨hA, hB, hC, hL⟩ := sf_phase1_run r ts0 (initSF n) s h0 hinit1 hinit2 hinit3 hrun0
  have hlen : s.callers.length = n := by
    rw [hL]
    exact List.length_replicate n _
  have hne : s.callers ≠ [] := by
    intro hnil
    rw [hnil] at hlen
    simp at hlen
    omega
  obtain ⟨c0, hc0⟩ := List.exists_mem_of_ne_nil s.callers hne
  have hw : c0 = CallerState.waiting ∧ s.inFlight = true := by
    rcases hC c0 hc0 with h | h
    · exact absurd (h ▸ hc0) hnostart
    · exact h
  have horigin : s.originCalls = 1 := hB.1 hw.2
  have hwaiting : ∀ c ∈ s.callers, c = CallerState.waiting ∨ c = CallerState.done r := by
    intro c hc
    rcases hC c hc with h | h
    · exact absurd (h ▸ hc) hnostart
    · exact Or.inl h.1
  exact sf_phase2_run r ts1 s s' horigin hwaiting hrun1

/-- C3 witness: two concurrent callers; caller 0 installs the fetch, caller 1
joins as a waiter, the fetch completes, both receive the same payload, and
exactly one origin call was made. -/
theorem single_flight_dedup_witness :
    (⟨[CallerState.done (.ok "P"), CallerState.done (.ok "P")], false, true, 1⟩ : SFState).originCalls = 1 ∧
    (∀ c ∈ (⟨[CallerState.done (.ok "P"), CallerState.done (.ok "P")], false, true, 1⟩ : SFState).callers,
      c = CallerState.waiting ∨ c = CallerState.done (.ok "P")) ∧
    (SFStep.complete ∈ [SFStep.complete] →
      ∀ c ∈ (⟨[CallerState.done (.ok "P"), CallerState.done (.ok "P")], false, true, 1⟩ : SFState).callers,
        c = CallerState.done (.ok "P")) :=
  single_flight_dedup (.ok "P") 2 [SFStep.beginFetch 0, SFStep.joinFlight 1] [SFStep.complete]
    ⟨[CallerState.waiting, CallerState.waiting], true, false, 1⟩
    ⟨[CallerState.done (.ok "P"), CallerState.done (.ok "P")], false, true, 1⟩
    (by decide) (by decide) (by decide) (by decide) (by decide)

theorem renderFixed_512_two : renderFixed 2 512 = "512" := by
  have hfloor : ⌊(512 : ℚ) * (10 : ℚ) ^ (2 : ℕ) + 1 / 2⌋ = (51200 : ℤ) := by
    rw [Int.floor_eq_iff]
    constructor <;> norm_num
  simp only [renderFixed, hfloor]
  decide

/-- C9 counterexample: the positive finite input `0.5` does not produce a
value with a unit from the `sizes` array: the index
`Math.floor(log_1024 0.5) = -1` is out of range, `sizes[-1]` is `undefined`,
and the code renders `"512 undefined"`. -/
theorem formatBytes_fractional_cex :
    formatBytes (JSValue.num (1 / 2)) 2 = "512 undefined" ∧
    ∀ u ∈ sizes, "512 undefined" ≠ "512" ++ " " ++ u := by
  constructor
  · have hq0 : (1 / 2 : ℚ) ≠ 0 := by norm_num
    have hqneg : ¬(1 / 2 : ℚ) < 0 := by norm_num
    have hnotone : ¬(1 : ℚ) ≤ 1 / 2 := by norm_num
    have hinv : ((1 / 2 : ℚ)⁻¹) = 2 := by norm_num
    have hceil : (⌈(2 : ℚ)⌉).toNat = 2 := by
      rw [show ((2 : ℚ)) = ((2 : ℤ) : ℚ) by norm_num, Int.ceil_intCast]
      rfl
    have hclog : Nat.clog 1024 2 = 1 := Nat.clog_eq_one (by norm_num) (by norm_num)
    have hflog : floorLog1024 (1 / 2) = (-1 : ℤ) := by
      unfold floorLog1024
      rw [if_neg hnotone, hinv, hceil, hclog]
      norm_num
    have hx : (1 / 2 : ℚ) / (1024 : ℚ) ^ (-1 : ℤ) = 512 := by
      rw [zpow_neg, zpow_one]
      norm_num
    simp only [formatBytes, jsToNumber]
    rw [if_neg hq0, if_neg hqneg, hflog, hx,
      if_neg (by norm_num : ¬((0 : ℤ) ≤ -1 ∧ (-1 : ℤ) < 5)),
      show ((2 : ℤ)).toNat = 2 from rfl, renderFixed_512_two]
    decide
  · decide

/-- C9 corrected: `formatBytes` returns `"0 Bytes"` exactly for inputs whose
JS coercion `+bytes` is `0` or `NaN` (covering `0`, `null`, `undefined` and
non-numeric strings), and for a positive numeric input `q` in the supported
range `1 ≤ q < 1024^5` it returns the value divided by
`1024 ^ floor(log_1024 q)`, rounded to the given number of decimals, followed
by the matching unit of the `sizes` array. -/
theorem formatBytes_amended :
    (∀ (v : JSValue) (d : Int), (jsToNumber v = some 0 ∨ jsToNumber v = none) →
      formatBytes v d = "0 Bytes") ∧
    (∀ (q : ℚ) (d : Int), 1 ≤ q → q < (1024 : ℚ) ^ (5 : ℕ) →
      ∃ i : Nat, i < 5 ∧ (1024 : ℚ) ^ i ≤ q ∧ q < (1024 : ℚ) ^ (i + 1) ∧
        formatBytes (JSValue.num q) d =
          renderFixed d.toNat (q / (1024 : ℚ) ^ i) ++ " " ++ sizes.getD i "undefined") := by
  constructor
  · intro v d h
    rcases h with h | h
    · simp [formatBytes, h]
    · simp [formatBytes, h]
  · intro q d h1 h5
    have hqpos : (0 : ℚ) < q := lt_of_lt_of_le one_pos h1
    have hq0 : q ≠ 0 := ne_of_gt hqpos
    have hqneg : ¬q < 0 := not_lt.mpr hqpos.le
    have hflnn : (1 : ℤ) ≤ ⌊q⌋ := Int.le_floor.mpr (by exact_mod_cast h1)
    have hm0 : (⌊q⌋).toNat ≠ 0 := by omega
    have hmcast : (((⌊q⌋).toNat : ℤ) : ℚ) = ((⌊q⌋ : ℤ) : ℚ) := by
      rw [Int.toNat_of_nonneg (by omega)]
    have hmq : (((⌊q⌋).toNat : ℕ) : ℚ) ≤ q := by
      have hle := Int.floor_le q
      push_cast at hmcast ⊢
      rw [hmcast]
      exact hle
    have hqm : q < (((⌊q⌋).toNat : ℕ) : ℚ) + 1 := by
      have hlt := Int.lt_floor_add_one q
      push_cast at hmcast ⊢
      rw [hmcast]
      exact hlt
    have hle : 1024 ^ Nat.log 1024 (⌊q⌋).toNat ≤ (⌊q⌋).toNat :=
      Nat.pow_log_le_self 1024 hm0
    have hlt : (⌊q⌋).toNat < 1024 ^ (Nat.log 1024 (⌊q⌋).toNat + 1) := by
      have := Nat.lt_pow_succ_log_self (by norm_num : (1 : ℕ) < 1024) (⌊q⌋).toNat
      simpa [Nat.succ_eq_add_one] using this
    have hm5 : (⌊q⌋).toNat < 1024 ^ 5 := by
      have hq5 : q < ((1024 ^ 5 : ℕ) : ℚ) := by
        calc q < (1024 : ℚ) ^ (5 : ℕ) := h5
        _ = ((1024 ^ 5 : ℕ) : ℚ) := by push_cast; ring
      have : (((⌊q⌋).toNat : ℕ) : ℚ) < ((1024 ^ 5 : ℕ) : ℚ) := lt_of_le_of_lt hmq hq5
      exact_mod_cast this
    have hi5 : Nat.log 1024 (⌊q⌋).toNat < 5 := Nat.log_lt_of_lt_pow hm0 hm5
    have hpow_le : (1024 : ℚ) ^ Nat.log 1024 (⌊q⌋).toNat ≤ q := by
      calc (1024 : ℚ) ^ Nat.log 1024 (⌊q⌋).toNat
          = ((1024 ^ Nat.log 1024 (⌊q⌋).toNat : ℕ) : ℚ) := by push_cast; ring
      _ ≤ (((⌊q⌋).toNat : ℕ) : ℚ) := by exact_mod_cast hle
      _ ≤ q := hmq
    have hq_lt : q < (1024 : ℚ) ^ (Nat.log 1024 (⌊q⌋).toNat + 1) := by
      calc q < (((⌊q⌋).toNat : ℕ) : ℚ) + 1 := hqm
      _ ≤ ((1024 ^ (Nat.log 1024 (⌊q⌋).toNat + 1) : ℕ) : ℚ) := by
          exact_mod_cast Nat.succ_le_of_lt hlt
      _ = (1024 : ℚ) ^ (Nat.log 1024 (⌊q⌋).toNat + 1) := by push_cast; ring
    refine ⟨Nat.log 1024 (⌊q⌋).toNat, hi5, hpow_le, hq_lt, ?_⟩
    have hflog : floorLog1024 q = ((Nat.log 1024 (⌊q⌋).toNat : ℕ) : ℤ) := by
      unfold floorLog1024
      rw [if_pos h1]
    simp only [formatBytes, jsToNumber]
    rw [if_neg hq0, if_neg hqneg, hflog,
      if_pos ⟨Int.natCast_nonneg _, by exact_mod_cast hi5⟩,
      zpow_natCast, Int.toNat_natCast]

/-- C9 witness: the `0 Bytes` cases for `undefined`, `null` and a non-numeric
string, and the in-range input 2048 (which lands in the KB bucket). -/
theorem formatBytes_amended_witness :
    formatBytes JSValue.undef 2 = "0 Bytes" ∧
    formatBytes JSValue.null 2 = "0 Bytes" ∧
    formatBytes (JSValue.str "not a number") 2 = "0 Bytes" ∧
    (∃ i : Nat, i < 5 ∧ (1024 : ℚ) ^ i ≤ 2048 ∧ (2048 : ℚ) < (1024 : ℚ) ^ (i + 1) ∧
      formatBytes (JSValue.num 2048) 2 =
        renderFixed (2 : Int).toNat ((2048 : ℚ) / (1024 : ℚ) ^ i) ++ " " ++
          sizes.getD i "undefined") :=
  ⟨formatBytes_amended.1 JSValue.undef 2 (Or.inr rfl),
   formatBytes_amended.1 JSValue.null 2 (Or.inl rfl),
   formatBytes_amended.1 (JSValue.str "not a number") 2 (Or.inr (by decide)),
   formatBytes_amended.2 2048 2 (by norm_num) (by norm_num)⟩

end KaspaGateway
